import Mathlib

/-
Verification of the layout-generation and transition engine of the
tile-visualization repository.

The development shallowly embeds the relevant JavaScript into Lean:

* JavaScript numbers are modelled as real numbers (the exact-real
  idealization of IEEE doubles); Math.acos, Math.sqrt, Math.sin,
  Math.cos, Math.PI become Real.arccos, Real.sqrt, Real.sin, Real.cos,
  Real.pi.
* THREE.Object3D state relevant to the claims is a record of a position
  vector, an Euler-angle rotation vector (three.js keeps the Euler cache
  synchronized with the quaternion; writes to rotation components
  propagate to the quaternion via the XYZ Euler-to-quaternion formula,
  which we model explicitly), and a unit quaternion.
* The tween.js engine state is a list of scheduled interpolation jobs.
  TWEEN.removeAll() empties the list; creating and starting a tween
  appends a job.  A job records the object index it mutates, its start
  delay and duration in milliseconds, its easing curve, and its
  interpolation payload (start and end values captured from the object
  and the target).  Advancing a job to an eased interpolation factor e
  mutates the object's fields exactly as the corresponding onUpdate
  code does.
-/

noncomputable section

namespace ThreeViz

/-- A 3D vector: models THREE.Vector3 and THREE.Euler component data. -/
@[ext]
structure Vec3 where
  x : ℝ
  y : ℝ
  z : ℝ

/-- A quaternion, components in three.js (x, y, z, w) layout. -/
@[ext]
structure Quat where
  x : ℝ
  y : ℝ
  z : ℝ
  w : ℝ

/-- Componentwise negation of a quaternion.  q and -q represent the same
rotation, so two quaternions describe the same orientation iff they are
equal or negatives of each other. -/
def Quat.negQ (q : Quat) : Quat := ⟨-q.x, -q.y, -q.z, -q.w⟩

/-- The identity quaternion (1, 0, 0, 0) in (x,y,z,w) layout: (0,0,0,1);
the orientation of a freshly constructed THREE.Object3D. -/
def Quat.identity : Quat := ⟨0, 0, 0, 1⟩

/-- The state of one animatable THREE.Object3D: mutable position, Euler
rotation cache and quaternion.  three.js keeps rotation and quaternion
describing the same orientation; the quaternion is the canonical
representation. -/
@[ext]
structure Obj where
  position : Vec3
  rotation : Vec3
  quaternion : Quat

/-- The four cached formations: the global targets object with its
table, sphere, helix and grid fields. -/
structure Targets where
  table : List Obj
  sphere : List Obj
  helix : List Obj
  grid : List Obj

/-! ## three.js vector, quaternion and Euler operations

Embedded from the three.js library sources that the repository calls
into (Vector3, Quaternion.setFromRotationMatrix, Quaternion.setFromEuler,
Quaternion.slerp, Matrix4.lookAt, Object3D.lookAt). -/

/-- THREE.Vector3.subVectors. -/
def Vec3.sub (a b : Vec3) : Vec3 := ⟨a.x - b.x, a.y - b.y, a.z - b.z⟩

/-- THREE.Vector3.crossVectors. -/
def Vec3.cross (a b : Vec3) : Vec3 :=
  ⟨a.y * b.z - a.z * b.y, a.z * b.x - a.x * b.z, a.x * b.y - a.y * b.x⟩

/-- THREE.Vector3.lengthSq. -/
def Vec3.lengthSq (v : Vec3) : ℝ := v.x * v.x + v.y * v.y + v.z * v.z

/-- THREE.Vector3.length. -/
def Vec3.len (v : Vec3) : ℝ := Real.sqrt v.lengthSq

/-- THREE.Vector3.normalize: divideScalar(length || 1); a zero vector is
left unchanged. -/
def Vec3.normalize (v : Vec3) : Vec3 :=
  if v.len = 0 then v else ⟨v.x / v.len, v.y / v.len, v.z / v.len⟩

/-- THREE.Vector3.multiplyScalar. -/
def Vec3.smul (c : ℝ) (v : Vec3) : Vec3 := ⟨c * v.x, c * v.y, c * v.z⟩

/-- Object3D.DEFAULT_UP. -/
def defaultUp : Vec3 := ⟨0, 1, 0⟩

/-- THREE.Matrix4.lookAt(eye, target, up): the three orthonormal basis
column vectors (x, y, z) of the rotation part, with the degenerate-case
guards of the three.js source. -/
def lookAtCols (eye target up : Vec3) : Vec3 × Vec3 × Vec3 :=
  let z0 := Vec3.sub eye target
  let z1 := if z0.lengthSq = 0 then { z0 with z := 1 } else z0
  let z2 := z1.normalize
  let x0 := Vec3.cross up z2
  if x0.lengthSq = 0 then
    let z3 := if |up.z| = 1 then { z2 with x := z2.x + 0.0001 }
              else { z2 with z := z2.z + 0.0001 }
    let z4 := z3.normalize
    let x1 := (Vec3.cross up z4).normalize
    (x1, Vec3.cross z4 x1, z4)
  else
    let x1 := x0.normalize
    (x1, Vec3.cross z2 x1, z2)

/-- THREE.Quaternion.setFromRotationMatrix on the pure-rotation matrix
whose columns are x, y, z (so m11 = x.x, m12 = y.x, m13 = z.x, ...). -/
def quatFromCols (x y z : Vec3) : Quat :=
  let m11 := x.x; let m12 := y.x; let m13 := z.x
  let m21 := x.y; let m22 := y.y; let m23 := z.y
  let m31 := x.z; let m32 := y.z; let m33 := z.z
  let trace := m11 + m22 + m33
  if 0 < trace then
    let s := 0.5 / Real.sqrt (trace + 1)
    ⟨(m32 - m23) * s, (m13 - m31) * s, (m21 - m12) * s, 0.25 / s⟩
  else if m22 < m11 ∧ m33 < m11 then
    let s := 2 * Real.sqrt (1 + m11 - m22 - m33)
    ⟨0.25 * s, (m12 + m21) / s, (m13 + m31) / s, (m32 - m23) / s⟩
  else if m33 < m22 then
    let s := 2 * Real.sqrt (1 + m22 - m11 - m33)
    ⟨(m12 + m21) / s, 0.25 * s, (m23 + m32) / s, (m13 - m31) / s⟩
  else
    let s := 2 * Real.sqrt (1 + m33 - m11 - m22)
    ⟨(m13 + m31) / s, (m23 + m32) / s, 0.25 * s, (m21 - m12) / s⟩

/-- THREE.Object3D.lookAt(target) for a non-camera object: builds
Matrix4.lookAt(target, position, up) — eye and target swapped relative
to the camera case — and reads the quaternion off that matrix. -/
def lookAtQuat (position target : Vec3) : Quat :=
  let c := lookAtCols target position defaultUp
  quatFromCols c.1 c.2.1 c.2.2

/-- THREE.Quaternion.setFromEuler for the default XYZ Euler order;
three.js invokes this whenever an Euler rotation component is written,
keeping object.quaternion synchronized with object.rotation. -/
def eulerToQuat (e : Vec3) : Quat :=
  let c1 := Real.cos (e.x / 2)
  let c2 := Real.cos (e.y / 2)
  let c3 := Real.cos (e.z / 2)
  let s1 := Real.sin (e.x / 2)
  let s2 := Real.sin (e.y / 2)
  let s3 := Real.sin (e.z / 2)
  ⟨s1 * c2 * c3 + c1 * s2 * s3,
   c1 * s2 * c3 - s1 * c2 * s3,
   c1 * c2 * s3 + s1 * s2 * c3,
   c1 * c2 * c3 - s1 * s2 * s3⟩

/-- THREE.Quaternion.slerp(qb, t) invoked on qa, exactly following the
branch structure of the three.js source.  The Number.EPSILON guard on
the squared sine is idealized to a comparison with exact zero, and
Math.atan2(sinHalfTheta, cosHalfTheta) — whose arguments in that branch
satisfy sinHalfTheta ≥ 0 and 0 ≤ cosHalfTheta < 1 — is written as
Real.arccos cosHalfTheta, which is equal there. -/
def slerpQuats (qa qb : Quat) (t : ℝ) : Quat :=
  if t = 0 then qa
  else if t = 1 then qb
  else
    let cosHalfTheta0 := qa.w * qb.w + qa.x * qb.x + qa.y * qb.y + qa.z * qb.z
    let qbAdj := if cosHalfTheta0 < 0 then qb.negQ else qb
    let cosHalfTheta := if cosHalfTheta0 < 0 then -cosHalfTheta0 else cosHalfTheta0
    if 1 ≤ cosHalfTheta then qa
    else
      let sqrSinHalfTheta := 1 - cosHalfTheta ^ 2
      if sqrSinHalfTheta ≤ 0 then
        let s := 1 - t
        let r : Quat := ⟨s * qa.x + t * qbAdj.x, s * qa.y + t * qbAdj.y,
                         s * qa.z + t * qbAdj.z, s * qa.w + t * qbAdj.w⟩
        let l := Real.sqrt (r.x * r.x + r.y * r.y + r.z * r.z + r.w * r.w)
        if l = 0 then ⟨0, 0, 0, 1⟩ else ⟨r.x / l, r.y / l, r.z / l, r.w / l⟩
      else
        let sinHalfTheta := Real.sqrt sqrSinHalfTheta
        let halfTheta := Real.arccos cosHalfTheta
        let ratioA := Real.sin ((1 - t) * halfTheta) / sinHalfTheta
        let ratioB := Real.sin (t * halfTheta) / sinHalfTheta
        ⟨qa.x * ratioA + qbAdj.x * ratioB, qa.y * ratioA + qbAdj.y * ratioB,
         qa.z * ratioA + qbAdj.z * ratioB, qa.w * ratioA + qbAdj.w * ratioB⟩

/-! ## Layout generator: app.js buildTargets -/

/-- Table formation pose of item i (app.js):
position ((i % 20) * 220 - 2200, -(floor(i / 20) % 10) * 260 + 1200, 0),
orientation left at the Object3D default (identity). -/
def tablePose (i : ℕ) : Obj :=
  { position := ⟨(↑(i % 20) : ℝ) * 220 - 2200, -(↑(i / 20 % 10) : ℝ) * 260 + 1200, 0⟩,
    rotation := ⟨0, 0, 0⟩,
    quaternion := Quat.identity }

/-- Sphere formation polar angle: Math.acos(-1 + (2 * (i + 0.5)) / count). -/
def spherePhi (count i : ℕ) : ℝ := Real.arccos (-1 + (2 * ((i : ℝ) + 0.5)) / count)

/-- Sphere formation azimuthal angle: Math.sqrt(count * Math.PI) * phi. -/
def sphereTheta (count i : ℕ) : ℝ := Real.sqrt (count * Real.pi) * spherePhi count i

/-- Sphere formation position of item i (app.js): radius 1400 times the
unit direction (cos theta sin phi, sin theta sin phi, cos phi). -/
def spherePos (count i : ℕ) : Vec3 :=
  ⟨1400 * Real.cos (sphereTheta count i) * Real.sin (spherePhi count i),
   1400 * Real.sin (sphereTheta count i) * Real.sin (spherePhi count i),
   1400 * Real.cos (spherePhi count i)⟩

/-- Sphere formation pose: the position above, oriented by
obj.lookAt(position * 2).  The Euler cache after lookAt is not modelled
(no code under verification reads it). -/
def spherePose (count i : ℕ) : Obj :=
  { position := spherePos count i,
    rotation := ⟨0, 0, 0⟩,
    quaternion := lookAtQuat (spherePos count i) (Vec3.smul 2 (spherePos count i)) }

/-- Configured helix radius (const helixRadius = 800). -/
def helixRadius : ℝ := 800

/-- app.js helix angular step per pair (const angleStep = 0.25); the
part_002 variant uses 0.8 with the identical angle formula, so the
angle is kept parametric in the step below. -/
def helixAngleStep : ℝ := 0.25

/-- Vertical distance per pair (const verticalSpacing = 40 in app.js). -/
def helixVerticalSpacing : ℝ := 40

/-- Math.ceil(count / 2), the number of rungs/pairs. -/
def totalSegments (count : ℕ) : ℕ := (count + 1) / 2

/-- Vertical centering offset (totalSegments - 1) * verticalSpacing / 2,
computed in real arithmetic as in the source. -/
def helixYOffset (count : ℕ) : ℝ :=
  ((totalSegments count : ℝ) - 1) * helixVerticalSpacing / 2

/-- The published helix metadata record window._helixMeta. -/
structure HelixMeta where
  radius : ℝ
  totalHeight : ℝ

/-- window._helixMeta = radius: helixRadius,
totalHeight: totalSegments * verticalSpacing. -/
def helixMeta (count : ℕ) : HelixMeta :=
  { radius := helixRadius,
    totalHeight := (totalSegments count : ℝ) * helixVerticalSpacing }

/-- Helix angle of item i for angular step angleStep:
baseAngle + strandPhase + stagger with strand = i % 2,
pairIndex = floor(i / 2), baseAngle = pairIndex * angleStep,
strandPhase = 0 or PI, stagger = 0 or angleStep * 0.4. -/
def helixAngle (angleStep : ℝ) (i : ℕ) : ℝ :=
  let strand := i % 2
  let pairIndex := i / 2
  let baseAngle := (pairIndex : ℝ) * angleStep
  let strandPhase := if strand = 0 then 0 else Real.pi
  let stagger := if strand = 0 then 0 else angleStep * 0.4
  baseAngle + strandPhase + stagger

/-- Helix height of item i: pairIndex * verticalSpacing - helixYOffset. -/
def helixY (count i : ℕ) : ℝ :=
  (↑(i / 2) : ℝ) * helixVerticalSpacing - helixYOffset count

/-- Helix position of item i (app.js: a single radius for both strands). -/
def helixPos (count i : ℕ) : Vec3 :=
  ⟨helixRadius * Real.cos (helixAngle helixAngleStep i),
   helixY count i,
   helixRadius * Real.sin (helixAngle helixAngleStep i)⟩

/-- Helix pose: position above, oriented by
obj.lookAt(new THREE.Vector3(0, helixHeight, 0)). -/
def helixPose (count i : ℕ) : Obj :=
  { position := helixPos count i,
    rotation := ⟨0, 0, 0⟩,
    quaternion := lookAtQuat (helixPos count i) ⟨0, helixY count i, 0⟩ }

/-- Math.ceil(count / 20), the number of grid layers. -/
def gridLayers (count : ℕ) : ℕ := (count + 19) / 20

/-- Grid total depth (layers - 1) * zGap with zGap = 400. -/
def gridTotalDepth (count : ℕ) : ℝ := ((gridLayers count : ℝ) - 1) * 400

/-- Grid formation pose of item i (app.js):
x = (i % 5) * 300 - 600, y = (floor(i / 5) % 4) * 400 - 400,
z = floor(i / 20) * 400 - totalDepth / 2; orientation identity. -/
def gridPose (count i : ℕ) : Obj :=
  { position := ⟨(↑(i % 5) : ℝ) * 300 - 600,
                 (↑(i / 5 % 4) : ℝ) * 400 - 400,
                 (↑(i / 20) : ℝ) * 400 - gridTotalDepth count / 2⟩,
    rotation := ⟨0, 0, 0⟩,
    quaternion := Quat.identity }

/-- app.js buildTargets(count): the four formations, each one produced
by a for-loop over i from 0 to count - 1 pushing the i-th pose. -/
def buildTargets (count : ℕ) : Targets :=
  { table := (List.range count).map tablePose,
    sphere := (List.range count).map (spherePose count),
    helix := (List.range count).map (helixPose count),
    grid := (List.range count).map (gridPose count) }

/-- The y coordinates of the count helix poses, as a finite set. -/
def helixYs (count : ℕ) : Finset ℝ := (Finset.range count).image (helixY count)

/-- The actual total vertical extent of the helix formation: maximum y
minus minimum y over its count poses (count ≥ 1). -/
def helixExtent (count : ℕ) (h : 0 < count) : ℝ :=
  (helixYs count).max'
    ((Finset.nonempty_range_iff.mpr (Nat.pos_iff_ne_zero.mp h)).image _) -
  (helixYs count).min'
    ((Finset.nonempty_range_iff.mpr (Nat.pos_iff_ne_zero.mp h)).image _)

/-! ## Transition engine: the tween.js job model -/

/-- TWEEN.Easing.Cubic.InOut. -/
def cubicInOut (k : ℝ) : ℝ :=
  if 2 * k < 1 then 1 / 2 * (2 * k) ^ 3
  else 1 / 2 * ((2 * k - 2) ^ 3 + 2)

/-- TWEEN.Easing.Exponential.InOut (used by the part_003 variant). -/
def expInOut (k : ℝ) : ℝ :=
  if k = 0 then 0
  else if k = 1 then 1
  else if 2 * k < 1 then 1 / 2 * (2 : ℝ) ^ (10 * (2 * k - 1))
  else 1 / 2 * (-(2 : ℝ) ^ (-10 * (2 * k - 1)) + 2)

/-- TWEEN.Easing.Linear.None, the default easing of a tween that never
sets one. -/
def linearNone (k : ℝ) : ℝ := k

/-- tween.js numeric interpolation: start + (end - start) * factor. -/
def lerp (s t e : ℝ) : ℝ := s + (t - s) * e

/-- Componentwise tween.js interpolation of the three components of a
nested x/y/z object. -/
def lerpV3 (s t : Vec3) (e : ℝ) : Vec3 := ⟨lerp s.x t.x e, lerp s.y t.y e, lerp s.z t.z e⟩

/-- The interpolation payload of one scheduled tween. -/
inductive JobKind where
  /-- new TWEEN.Tween(obj.position).to(x/y/z of the target position):
  app.js position tween, also the part_003 position tween. -/
  | posJob (s t : Vec3)
  /-- The app.js rotation tween: a scalar tween of qTween.t from 0 to 1
  whose onUpdate sets obj.quaternion to
  startQuat.slerp(targetQuat, qTween.t). -/
  | quatJob (s t : Quat)
  /-- new TWEEN.Tween(object.rotation).to(x/y/z of target.rotation): the
  part_003 per-axis Euler rotation tween. -/
  | eulerJob (s t : Vec3)
  /-- new TWEEN.Tween(obj).to(nested position and rotation targets): the
  combined tween of the part_002 and part_004 variants. -/
  | posRotJob (ps pt rs rt : Vec3)
  /-- A tween of a throwaway plain object (the dummy tweens of
  part_002/part_003/part_004); touches no scene object. -/
  | dummyJob

/-- One scheduled tween of the global TWEEN engine. -/
structure Job where
  objIndex : ℕ
  delay : ℝ
  duration : ℝ
  easing : ℝ → ℝ
  kind : JobKind

/-- Effect on the mutated object of advancing a job's interpolation to
the eased factor e (tween.js passes the eased value to the property
interpolator and to onUpdate).  Writes to Euler rotation components
propagate to the quaternion through the three.js XYZ Euler sync. -/
def applyAtFactor (e : ℝ) (k : JobKind) (o : Obj) : Obj :=
  match k with
  | .posJob s t => { o with position := lerpV3 s t e }
  | .quatJob s t => { o with quaternion := slerpQuats s t e }
  | .eulerJob s t =>
      { o with rotation := lerpV3 s t e, quaternion := eulerToQuat (lerpV3 s t e) }
  | .posRotJob ps pt rs rt =>
      { o with position := lerpV3 ps pt e, rotation := lerpV3 rs rt e,
               quaternion := eulerToQuat (lerpV3 rs rt e) }
  | .dummyJob => o

/-- Advance a job to raw (pre-easing) progress k of its lifetime. -/
def applyAtProgress (k : ℝ) (j : Job) (o : Obj) : Obj :=
  applyAtFactor (j.easing k) j.kind o

/-- Apply a function to the element at one index of a list, leaving all
other elements untouched (the engine mutates exactly the object a job
belongs to). -/
def setAt (f : Obj → Obj) : ℕ → List Obj → List Obj
  | _, [] => []
  | 0, a :: as => f a :: as
  | n + 1, a :: as => a :: setAt f n as

/-- Completion of a single job: tween.js clamps elapsed/duration to 1,
so a finished job has applied its update at raw progress 1. -/
def finishJob (ps : List Obj) (j : Job) : List Obj :=
  setAt (applyAtProgress 1 j) j.objIndex ps

/-- The collection of objects after every job of the engine has reached
completion. -/
def runToCompletion (E : List Job) (ps : List Obj) : List Obj :=
  E.foldl finishJob ps

/-! ## app.js transform -/

/-- const maxStagger = 300. -/
def maxStagger : ℝ := 300

/-- const perItemStagger = 6. -/
def perItemStagger : ℝ := 6

/-- The batch of tweens scheduled by the objects.forEach loop of app.js
transform: for each object i with an existing target (if (!target)
return; skips the rest), a position tween and a quaternion tween, both
with delay Math.min(i * perItemStagger, maxStagger), the given duration
and Cubic.InOut easing. -/
def appJobsAt (objs ts : List Obj) (d : ℝ) (i : ℕ) : List Job :=
  match objs[i]?, ts[i]? with
  | some o, some t =>
      [⟨i, min ((i : ℝ) * perItemStagger) maxStagger, d, cubicInOut,
        .posJob o.position t.position⟩,
       ⟨i, min ((i : ℝ) * perItemStagger) maxStagger, d, cubicInOut,
        .quatJob o.quaternion t.quaternion⟩]
  | _, _ => []

/-- The whole app.js batch: the per-index tween pairs in loop order. -/
def buildJobs (objs ts : List Obj) (d : ℝ) : List Job :=
  (List.range objs.length).flatMap (appJobsAt objs ts d)

/-- app.js transform(targetsArray, duration): returns unchanged on a
missing targets array or an empty object collection (the
if (!targetsArray || !objects.length) return; guard), otherwise calls
TWEEN.removeAll() — discarding the whole previous engine state — and
schedules the new batch.  The result is the new engine state. -/
def transform (objs : List Obj) (targetsArray : Option (List Obj)) (d : ℝ)
    (engine : List Job) : List Job :=
  match targetsArray with
  | none => engine
  | some ts => if objs.length = 0 then engine else buildJobs objs ts d

/-! ## Variant transforms -/

/-- part_002 transform(targetsArray): does NOT call TWEEN.removeAll, so
the previous engine state survives; starts a dummy tween of a throwaway
object over 1000 ms, then for each object with an existing target one
combined tween of nested position and rotation (Euler) properties over
1500 ms with Cubic.InOut easing and no delay. -/
def part002Transform (objs ts : List Obj) (engine : List Job) : List Job :=
  engine ++ ⟨0, 0, 1000, linearNone, .dummyJob⟩ ::
    ((List.range objs.length).flatMap fun i =>
      match objs[i]?, ts[i]? with
      | some o, some t =>
          [⟨i, 0, 1500, cubicInOut,
            .posRotJob o.position t.position o.rotation t.rotation⟩]
      | _, _ => [])

/-- part_004 transform(targets): like part_002 (no removeAll, dummy
tween, combined position/rotation tweens), but its loop reads
targets[i].position with no guard, so when the object collection is
longer than the target array the access targets[i].position throws a
TypeError; the thrown run is modelled as none (the partially built
engine of an aborted run is not observable to the caller). -/
def part004Transform (objs ts : List Obj) (engine : List Job) : Option (List Job) :=
  if objs.length ≤ ts.length then
    some (engine ++ ⟨0, 0, 1000, linearNone, .dummyJob⟩ ::
      ((List.range objs.length).flatMap fun i =>
        match objs[i]?, ts[i]? with
        | some o, some t =>
            [⟨i, 0, 1500, cubicInOut,
              .posRotJob o.position t.position o.rotation t.rotation⟩]
        | _, _ => []))
  else none

/-- The per-object tweens of part_003 transform: for object i a position
tween and a separate per-axis Euler rotation tween, each over
Math.random() * duration + duration ms (the two Math.random() draws are
supplied by rand at indices 2i and 2i+1) with Exponential.InOut easing.
The length-mismatch fallback path of that variant (rebuilding the
global layouts and falling back to targets.table[i]) is outside this
model, which is only instantiated with equal lengths. -/
def part003Jobs (objs ts : List Obj) (rand : ℕ → ℝ) (d : ℝ) : List Job :=
  (List.range objs.length).flatMap fun i =>
    match objs[i]?, ts[i]? with
    | some o, some t =>
        [⟨i, 0, rand (2 * i) * d + d, expInOut, .posJob o.position t.position⟩,
         ⟨i, 0, rand (2 * i + 1) * d + d, expInOut, .eulerJob o.rotation t.rotation⟩]
    | _, _ => []

/-- part_003 transform(targetsArray, duration): calls TWEEN.removeAll()
(discarding engine), schedules the per-object tweens, then one dummy
render tween over duration * 2. -/
def part003Transform (objs ts : List Obj) (rand : ℕ → ℝ) (d : ℝ)
    (_engine : List Job) : List Job :=
  part003Jobs objs ts rand d ++ [⟨0, 0, d * 2, linearNone, .dummyJob⟩]

/-! ## Net-worth color categorisation

app.js netColor (after its numeric parse) and part_003 pickColor. -/

/-- The three presentation categories. -/
inductive NetColor where
  | red
  | orange
  | green
deriving DecidableEq

/-- Numeric branch structure of app.js netColor:
if (num < 100000) return red; if (num <= 200000) return orange;
return green.  (The surrounding string parse
Number(v.replace(/[^0-9.]/g, "")) is outside the numeric model.) -/
def netColor (num : ℝ) : NetColor :=
  if num < 100000 then .red
  else if num ≤ 200000 then .orange
  else .green

/-- part_003 pickColor:
if (value > 200000) return green;
if (value >= 100000 && value <= 200000) return orange; return red. -/
def pickColor (value : ℝ) : NetColor :=
  if value > 200000 then .green
  else if 100000 ≤ value ∧ value ≤ 200000 then .orange
  else .red

/-- Claim C9: for every numeric net-worth value v, the category function
returns red iff v < 100000, orange iff 100000 ≤ v ≤ 200000 (both bounds
inclusive), and green iff v > 200000 — exactly one of the three; this
holds for app.js netColor and part_003 pickColor alike (indeed the two
branch structures agree on every value). -/
theorem C9_netColor_categories :
    ∀ v : ℝ,
      (netColor v = .red ↔ v < 100000) ∧
      (netColor v = .orange ↔ 100000 ≤ v ∧ v ≤ 200000) ∧
      (netColor v = .green ↔ 200000 < v) ∧
      pickColor v = netColor v := by
  intro v
  unfold netColor pickColor
  split_ifs with h1 h2 h3 h4 h5 h6 h7 <;> simp_all <;> linarith

/-! ## Layout generator theorems -/

/-- Claim C4: for every count ≥ 0, buildTargets(count) produces exactly
count elements in each of the four formation sequences; count = 0
yields the empty sequence for every formation, and transform on an
empty object collection is a no-op — the guard returns before
TWEEN.removeAll, so the engine is returned unchanged and no job is
scheduled. -/
theorem C4_formation_counts :
    ∀ count : ℕ,
      ((buildTargets count).table.length = count ∧
       (buildTargets count).sphere.length = count ∧
       (buildTargets count).helix.length = count ∧
       (buildTargets count).grid.length = count) ∧
      ((buildTargets 0).table = [] ∧ (buildTargets 0).sphere = [] ∧
       (buildTargets 0).helix = [] ∧ (buildTargets 0).grid = []) ∧
      ∀ (ts : Option (List Obj)) (d : ℝ) (E : List Job),
        transform [] ts d E = E := by
  intro count
  refine ⟨⟨?_, ?_, ?_, ?_⟩, ⟨rfl, rfl, rfl, rfl⟩, ?_⟩
  · simp [buildTargets]
  · simp [buildTargets]
  · simp [buildTargets]
  · simp [buildTargets]
  · intro ts d E
    cases ts <;> simp [transform]

/-- Claim C6: helix strand phase separation — for every angular step,
the angle of the odd item of each pair exceeds the angle of the even
item of the same pair by exactly PI + angleStep * 0.4; concretely with
angleStep = 0.8 item 0 has angle 0 and item 1 has angle PI + 0.32, and
the offset is non-zero both for that step and for the app.js step. -/
theorem C6_helix_strand_phase :
    (∀ (angleStep : ℝ) (k : ℕ),
        helixAngle angleStep (2 * k + 1) =
          helixAngle angleStep (2 * k) + (Real.pi + angleStep * 0.4)) ∧
    helixAngle 0.8 0 = 0 ∧
    helixAngle 0.8 1 = Real.pi + 0.32 ∧
    Real.pi + 0.8 * 0.4 ≠ 0 ∧
    Real.pi + helixAngleStep * 0.4 ≠ 0 := by
  have hpi := Real.pi_pos
  refine ⟨?_, ?_, ?_, by nlinarith, ?_⟩
  · intro step k
    have h1 : (2 * k + 1) % 2 = 1 := by omega
    have h2 : (2 * k + 1) / 2 = k := by omega
    have h3 : (2 * k) % 2 = 0 := by omega
    have h4 : (2 * k) / 2 = k := by omega
    simp only [helixAngle, h1, h2, h3, h4]
    norm_num
    ring
  · norm_num [helixAngle]
  · norm_num [helixAngle]
  · unfold helixAngleStep
    nlinarith

/-- Claim C10: grid layer periodicity — whenever i + 20 < count, the
grid item at index i + 20 has the same x and y coordinates as the item
at index i and a z coordinate exactly zGap = 400 greater. -/
theorem C10_grid_layer_period (count i : ℕ) (h : i + 20 < count) :
    ∃ g g2, (buildTargets count).grid[i]? = some g ∧
      (buildTargets count).grid[i + 20]? = some g2 ∧
      g2.position.x = g.position.x ∧ g2.position.y = g.position.y ∧
      g2.position.z = g.position.z + 400 := by
  refine ⟨gridPose count i, gridPose count (i + 20), ?_, ?_, ?_, ?_, ?_⟩
  · simp [buildTargets, List.getElem?_range (show i < count by omega)]
  · simp [buildTargets, List.getElem?_range h]
  · have hx : (i + 20) % 5 = i % 5 := by omega
    simp [gridPose, hx]
  · have hy : (i + 20) / 5 % 4 = i / 5 % 4 := by omega
    simp [gridPose, hy]
  · have hz : (i + 20) / 20 = i / 20 + 1 := by omega
    simp only [gridPose, hz]
    push_cast
    ring

/-- Witness for C10 at count = 21, i = 0. -/
theorem C10_grid_layer_period_witness :
    0 + 20 < 21 ∧
    ∃ g g2, (buildTargets 21).grid[0]? = some g ∧
      (buildTargets 21).grid[0 + 20]? = some g2 ∧
      g2.position.x = g.position.x ∧ g2.position.y = g.position.y ∧
      g2.position.z = g.position.z + 400 :=
  ⟨by norm_num, C10_grid_layer_period 21 0 (by norm_num)⟩

/-- Claim C5: sphere radius invariant — for count ≥ 1 and i < count, the
Euclidean distance from the origin to the sphere item's position equals
the configured radius 1400 (exactly, in the real-number model). -/
theorem C5_sphere_radius (count i : ℕ) (_h1 : 1 ≤ count) (h2 : i < count) :
    ∃ g, (buildTargets count).sphere[i]? = some g ∧
      Real.sqrt (Vec3.lengthSq g.position) = 1400 := by
  refine ⟨spherePose count i, ?_, ?_⟩
  · simp [buildTargets, List.getElem?_range h2]
  · have hs := Real.sin_sq_add_cos_sq (spherePhi count i)
    have ht := Real.sin_sq_add_cos_sq (sphereTheta count i)
    have key : Vec3.lengthSq (spherePose count i).position = 1400 ^ 2 := by
      simp only [spherePose, spherePos, Vec3.lengthSq]
      linear_combination
        (1400 ^ 2 * Real.sin (spherePhi count i) ^ 2) * ht + (1400 ^ 2 : ℝ) * hs
    rw [key, Real.sqrt_sq (by norm_num : (0 : ℝ) ≤ 1400)]

/-- Witness for C5 at count = 1, i = 0. -/
theorem C5_sphere_radius_witness :
    1 ≤ 1 ∧ 0 < 1 ∧
    ∃ g, (buildTargets 1).sphere[0]? = some g ∧
      Real.sqrt (Vec3.lengthSq g.position) = 1400 :=
  ⟨le_refl 1, Nat.one_pos, C5_sphere_radius 1 0 (le_refl 1) Nat.one_pos⟩

/-! ## Helix metadata (claim C2) -/

/-- The actual vertical extent of the helix formation is
(floor((count - 1) / 2)) * verticalSpacing: the y coordinates grow with
the pair index, whose maximum over count items is floor((count-1)/2)
and whose minimum is 0. -/
theorem helixExtent_eq (count : ℕ) (h : 0 < count) :
    helixExtent count h = ((count - 1) / 2 : ℕ) * helixVerticalSpacing := by
  have hmono : ∀ j, j < count →
      helixY count j ≤ helixY count (count - 1) := by
    intro j hj
    have hdiv : j / 2 ≤ (count - 1) / 2 := Nat.div_le_div_right (by omega)
    have hcast : ((j / 2 : ℕ) : ℝ) ≤ (((count - 1) / 2 : ℕ) : ℝ) := by
      exact_mod_cast hdiv
    have := mul_le_mul_of_nonneg_right hcast
      (by norm_num [helixVerticalSpacing] : (0 : ℝ) ≤ helixVerticalSpacing)
    unfold helixY
    linarith
  have hmin : ∀ j, j < count → helixY count 0 ≤ helixY count j := by
    intro j hj
    have hcast : ((0 / 2 : ℕ) : ℝ) ≤ ((j / 2 : ℕ) : ℝ) := by
      exact_mod_cast Nat.div_le_div_right (Nat.zero_le j)
    have := mul_le_mul_of_nonneg_right hcast
      (by norm_num [helixVerticalSpacing] : (0 : ℝ) ≤ helixVerticalSpacing)
    unfold helixY
    linarith
  have hne : (helixYs count).Nonempty :=
    (Finset.nonempty_range_iff.mpr (Nat.pos_iff_ne_zero.mp h)).image _
  have hmax' : (helixYs count).max' hne = helixY count (count - 1) := by
    apply le_antisymm
    · apply Finset.max'_le
      intro y hy
      rw [helixYs, Finset.mem_image] at hy
      obtain ⟨j, hj, rfl⟩ := hy
      exact hmono j (Finset.mem_range.mp hj)
    · apply Finset.le_max'
      rw [helixYs, Finset.mem_image]
      exact ⟨count - 1, Finset.mem_range.mpr (by omega), rfl⟩
  have hmin' : (helixYs count).min' hne = helixY count 0 := by
    apply le_antisymm
    · apply Finset.min'_le
      rw [helixYs, Finset.mem_image]
      exact ⟨0, Finset.mem_range.mpr h, rfl⟩
    · apply Finset.le_min'
      intro y hy
      rw [helixYs, Finset.mem_image] at hy
      obtain ⟨j, hj, rfl⟩ := hy
      exact hmin j (Finset.mem_range.mp hj)
  unfold helixExtent
  rw [hmax', hmin']
  unfold helixY
  push_cast
  ring

/-- Claim C2, counterexample: at count = 2 the published helix metadata
totalHeight is 40, but the actual total vertical extent (max y minus
min y over the two poses, both of which sit at height 0) is 0, so
totalHeight does not equal the vertical extent. -/
theorem C2_counterexample :
    (helixMeta 2).totalHeight ≠ helixExtent 2 (by norm_num) ∧
    (helixMeta 2).totalHeight = 40 ∧ helixExtent 2 (by norm_num) = 0 := by
  have hext : helixExtent 2 (by norm_num) = 0 := by
    rw [helixExtent_eq]
    norm_num
  have hth : (helixMeta 2).totalHeight = 40 := by
    norm_num [helixMeta, totalSegments, helixVerticalSpacing]
  refine ⟨?_, hth, hext⟩
  rw [hext, hth]
  norm_num

/-- Claim C2, amended: for count ≥ 1 the published helix metadata's
radius equals the configured helix radius, and its totalHeight equals
ceil(count / 2) * verticalSpacing, which exceeds the actual total
vertical extent of the formation by exactly one verticalSpacing (40). -/
theorem C2_helix_meta_amended (count : ℕ) (h : 0 < count) :
    (helixMeta count).radius = helixRadius ∧
    (helixMeta count).totalHeight = helixExtent count h + helixVerticalSpacing := by
  refine ⟨rfl, ?_⟩
  rw [helixExtent_eq]
  unfold helixMeta totalSegments
  have hseg : (count + 1) / 2 = (count - 1) / 2 + 1 := by omega
  rw [hseg]
  push_cast
  ring

/-- Witness for the amended C2 at count = 3. -/
theorem C2_helix_meta_amended_witness :
    0 < 3 ∧
    ((helixMeta 3).radius = helixRadius ∧
     (helixMeta 3).totalHeight = helixExtent 3 (by norm_num) + helixVerticalSpacing) :=
  ⟨by norm_num, C2_helix_meta_amended 3 (by norm_num)⟩

/-! ## Engine lemmas -/

/-- setAt touches exactly the element at its index. -/
theorem setAt_getElem? (f : Obj → Obj) :
    ∀ (n : ℕ) (l : List Obj) (m : ℕ),
      (setAt f n l)[m]? = if m = n then (l[m]?).map f else l[m]? := by
  intro n l
  induction l generalizing n with
  | nil =>
    intro m
    cases n <;> simp [setAt]
  | cons a as ih =>
    intro m
    cases n with
    | zero =>
      cases m with
      | zero => simp [setAt]
      | succ m => simp [setAt]
    | succ n =>
      cases m with
      | zero => simp [setAt]
      | succ m => simpa [setAt] using ih n m

/-- Completing a whole engine acts on each object through exactly the
jobs whose index points at it, in schedule order. -/
theorem runToCompletion_getElem? :
    ∀ (E : List Job) (ps : List Obj) (i : ℕ),
      (runToCompletion E ps)[i]? =
        (ps[i]?).map fun o =>
          (E.filter fun j => j.objIndex == i).foldl (fun o j => applyAtProgress 1 j o) o := by
  intro E
  induction E with
  | nil =>
    intro ps i
    simp [runToCompletion]
  | cons j E ih =>
    intro ps i
    have hstep : runToCompletion (j :: E) ps = runToCompletion E (finishJob ps j) := rfl
    rw [hstep, ih, finishJob, setAt_getElem?]
    by_cases hj : j.objIndex = i
    · have hi : i = j.objIndex := hj.symm
      simp only [if_pos hi, List.filter_cons, hj, beq_self_eq_true, if_pos, Option.map_map]
      cases ps[i]? <;> simp
    · have hi : ¬ i = j.objIndex := fun hc => hj hc.symm
      have hbeq : (j.objIndex == i) = false := by
        simpa using hj
      simp only [if_neg hi, List.filter_cons, hbeq]
      cases ps[i]? <;> simp

/-- Filtering an index-tagged flatMap over a range down to one index
leaves exactly that index's jobs. -/
theorem filter_flatMap_range (F : ℕ → List Job)
    (hF : ∀ k j, j ∈ F k → j.objIndex = k) (i : ℕ) :
    ∀ n : ℕ, ((List.range n).flatMap F).filter (fun j => j.objIndex == i) =
      if i < n then F i else [] := by
  intro n
  induction n with
  | zero => simp
  | succ n ih =>
    rw [List.range_succ, List.flatMap_append, List.filter_append, ih]
    have hsingle : ([n] : List ℕ).flatMap F = F n := by simp
    rw [hsingle]
    by_cases hni : n = i
    · subst hni
      have hkeep : (F n).filter (fun j => j.objIndex == n) = F n :=
        List.filter_eq_self.mpr (fun j hj => by simp [hF n j hj])
      simp [hkeep]
    · have hdrop : (F n).filter (fun j => j.objIndex == i) = [] :=
        List.filter_eq_nil_iff.mpr (fun j hj => by simp [hF n j hj, hni])
      by_cases hlt : i < n
      · simp [hdrop, hlt, Nat.lt_succ_of_lt hlt]
      · have hge : ¬ i < n + 1 := by omega
        simp [hdrop, hlt, hge]

/-- Every job of an app.js batch is tagged with the object index of the
loop iteration that created it. -/
theorem appJobsAt_objIndex (objs ts : List Obj) (d : ℝ) :
    ∀ k j, j ∈ appJobsAt objs ts d k → j.objIndex = k := by
  intro k j hj
  unfold appJobsAt at hj
  rcases hok : objs[k]? with _ | o <;> rw [hok] at hj
  · simp at hj
  · rcases hts : ts[k]? with _ | t <;> rw [hts] at hj
    · simp at hj
    · simp only [List.mem_cons, List.mem_singleton] at hj
      rcases hj with rfl | rfl | hj
      · rfl
      · rfl
      · simp at hj

/-- The app.js batch filtered to one object index: the job pair of that
index when it has an object and a target, nothing otherwise. -/
theorem buildJobs_filter (objs ts : List Obj) (d : ℝ) (i : ℕ) :
    (buildJobs objs ts d).filter (fun j => j.objIndex == i) =
      if i < objs.length then appJobsAt objs ts d i else [] := by
  exact filter_flatMap_range _ (appJobsAt_objIndex objs ts d) i objs.length

/-- TWEEN Cubic.InOut easing maps completion to exactly 1. -/
theorem cubicInOut_one : cubicInOut 1 = 1 := by
  norm_num [cubicInOut]

/-- tween.js interpolation lands exactly on the end value at factor 1. -/
theorem lerpV3_one (s t : Vec3) : lerpV3 s t 1 = t := by
  ext <;> simp [lerpV3, lerp]

/-- three.js slerp lands exactly on the target quaternion at factor 1. -/
theorem slerpQuats_one (qa qb : Quat) : slerpQuats qa qb 1 = qb := by
  simp [slerpQuats]

/-- Completing the two jobs of one object of an app.js batch sets its
position and quaternion to the target's, leaving everything else. -/
theorem finish_pair (o t : Obj) (i : ℕ) (d : ℝ) :
    ([(⟨i, min ((i : ℝ) * perItemStagger) maxStagger, d, cubicInOut,
        .posJob o.position t.position⟩ : Job),
      ⟨i, min ((i : ℝ) * perItemStagger) maxStagger, d, cubicInOut,
        .quatJob o.quaternion t.quaternion⟩].foldl
       (fun o j => applyAtProgress 1 j o) o) =
      { o with position := t.position, quaternion := t.quaternion } := by
  simp [applyAtProgress, applyAtFactor, cubicInOut_one, lerpV3_one, slerpQuats_one]

/-- setAt of the empty list is empty, for every index. -/
theorem setAt_nil (f : Obj → Obj) (n : ℕ) : setAt f n [] = [] := by
  cases n <;> rfl

/-- An engine run over an empty object collection produces the empty
collection: no job can touch anything. -/
theorem runToCompletion_nil : ∀ E : List Job, runToCompletion E ([] : List Obj) = [] := by
  intro E
  induction E with
  | nil => rfl
  | cons j E ih =>
    show runToCompletion E (finishJob [] j) = []
    rw [finishJob, setAt_nil]
    exact ih

/-- Every job of the per-index batch of one app.js loop iteration
carries the stagger delay of that iteration. -/
theorem appJobsAt_delay (objs ts : List Obj) (d : ℝ) :
    ∀ k j, j ∈ appJobsAt objs ts d k →
      j.delay = min ((k : ℝ) * perItemStagger) maxStagger := by
  intro k j hj
  unfold appJobsAt at hj
  rcases hok : objs[k]? with _ | o <;> rw [hok] at hj
  · simp at hj
  · rcases hts : ts[k]? with _ | t <;> rw [hts] at hj
    · simp at hj
    · simp only [List.mem_cons, List.mem_singleton] at hj
      rcases hj with rfl | rfl | hj
      · rfl
      · rfl
      · simp at hj

/-! ## Transition engine theorems -/

/-- Claim C1, amended (the property as stated holds for the app.js
transform, which opens with TWEEN.removeAll before scheduling; the
part_002 variant violates it, see the counterexample): a second
transform call produces an engine identical to the one it would produce
from an empty engine — no pending or running job of the first call
survives, so no old and new job are ever simultaneously live — and on
completion every object with a target holds exactly the second call's
target position and orientation, with no contribution from the first
call's target. -/
theorem C1_transform_cancels (objs ts1 ts2 : List Obj) (E : List Job) (d1 d2 : ℝ)
    (hne : objs ≠ []) :
    transform objs (some ts2) d2 (transform objs (some ts1) d1 E) =
      transform objs (some ts2) d2 [] ∧
    ∀ (i : ℕ) (o t : Obj), objs[i]? = some o → ts2[i]? = some t →
      (runToCompletion
          (transform objs (some ts2) d2 (transform objs (some ts1) d1 E)) objs)[i]? =
        some { o with position := t.position, quaternion := t.quaternion } := by
  have hlen : ¬ objs.length = 0 := fun hc => hne (List.length_eq_zero.mp hc)
  have htr : transform objs (some ts2) d2 (transform objs (some ts1) d1 E) =
      buildJobs objs ts2 d2 := by
    simp [transform, hlen]
  constructor
  · rw [htr]
    simp [transform, hlen]
  · intro i o t ho ht
    have hi : i < objs.length := (List.getElem?_eq_some_iff.mp ho).1
    have hjobs : appJobsAt objs ts2 d2 i =
        [⟨i, min ((i : ℝ) * perItemStagger) maxStagger, d2, cubicInOut,
          .posJob o.position t.position⟩,
         ⟨i, min ((i : ℝ) * perItemStagger) maxStagger, d2, cubicInOut,
          .quatJob o.quaternion t.quaternion⟩] := by
      unfold appJobsAt
      rw [ho, ht]
    rw [htr, runToCompletion_getElem?, buildJobs_filter, if_pos hi, hjobs, ho]
    simp only [Option.map_some']
    rw [finish_pair]

/-- Witness for the amended C1: one object at the origin, first target
at x = 1, second target at x = 2; after the second call the engine
equals a fresh call's engine and the completed pose is the second
target. -/
theorem C1_transform_cancels_witness :
    (([(⟨⟨0, 0, 0⟩, ⟨0, 0, 0⟩, Quat.identity⟩ : Obj)] : List Obj) ≠ []) ∧
    transform [(⟨⟨0, 0, 0⟩, ⟨0, 0, 0⟩, Quat.identity⟩ : Obj)]
        (some [⟨⟨2, 0, 0⟩, ⟨0, 0, 0⟩, Quat.identity⟩]) 1200
        (transform [(⟨⟨0, 0, 0⟩, ⟨0, 0, 0⟩, Quat.identity⟩ : Obj)]
          (some [⟨⟨1, 0, 0⟩, ⟨0, 0, 0⟩, Quat.identity⟩]) 1200 []) =
      transform [(⟨⟨0, 0, 0⟩, ⟨0, 0, 0⟩, Quat.identity⟩ : Obj)]
        (some [⟨⟨2, 0, 0⟩, ⟨0, 0, 0⟩, Quat.identity⟩]) 1200 [] ∧
    (runToCompletion
        (transform [(⟨⟨0, 0, 0⟩, ⟨0, 0, 0⟩, Quat.identity⟩ : Obj)]
          (some [⟨⟨2, 0, 0⟩, ⟨0, 0, 0⟩, Quat.identity⟩]) 1200
          (transform [(⟨⟨0, 0, 0⟩, ⟨0, 0, 0⟩, Quat.identity⟩ : Obj)]
            (some [⟨⟨1, 0, 0⟩, ⟨0, 0, 0⟩, Quat.identity⟩]) 1200 []))
        [(⟨⟨0, 0, 0⟩, ⟨0, 0, 0⟩, Quat.identity⟩ : Obj)])[0]? =
      some (⟨⟨2, 0, 0⟩, ⟨0, 0, 0⟩, Quat.identity⟩ : Obj) := by
  have h := C1_transform_cancels
    [(⟨⟨0, 0, 0⟩, ⟨0, 0, 0⟩, Quat.identity⟩ : Obj)]
    [⟨⟨1, 0, 0⟩, ⟨0, 0, 0⟩, Quat.identity⟩]
    [⟨⟨2, 0, 0⟩, ⟨0, 0, 0⟩, Quat.identity⟩]
    [] 1200 1200 (by simp)
  exact ⟨by simp, h.1, h.2 0 _ _ rfl rfl⟩

/-- Claim C1, counterexample (part_002): the part_002 transform never
clears previous tweens, so after a second call the engine still holds
the first call's job for object index 0 (targeting position x = 1)
alongside the second call's job for the same index (targeting x = 2):
an old and a new job for the same object index are simultaneously
live, and the first call's target still contributes. -/
theorem C1_counterexample :
    (⟨0, 0, 1500, cubicInOut,
        .posRotJob ⟨0, 0, 0⟩ ⟨1, 0, 0⟩ ⟨0, 0, 0⟩ ⟨0, 0, 0⟩⟩ : Job) ∈
      part002Transform [(⟨⟨0, 0, 0⟩, ⟨0, 0, 0⟩, Quat.identity⟩ : Obj)]
        [⟨⟨2, 0, 0⟩, ⟨0, 0, 0⟩, Quat.identity⟩]
        (part002Transform [(⟨⟨0, 0, 0⟩, ⟨0, 0, 0⟩, Quat.identity⟩ : Obj)]
          [⟨⟨1, 0, 0⟩, ⟨0, 0, 0⟩, Quat.identity⟩] []) ∧
    (⟨0, 0, 1500, cubicInOut,
        .posRotJob ⟨0, 0, 0⟩ ⟨2, 0, 0⟩ ⟨0, 0, 0⟩ ⟨0, 0, 0⟩⟩ : Job) ∈
      part002Transform [(⟨⟨0, 0, 0⟩, ⟨0, 0, 0⟩, Quat.identity⟩ : Obj)]
        [⟨⟨2, 0, 0⟩, ⟨0, 0, 0⟩, Quat.identity⟩]
        (part002Transform [(⟨⟨0, 0, 0⟩, ⟨0, 0, 0⟩, Quat.identity⟩ : Obj)]
          [⟨⟨1, 0, 0⟩, ⟨0, 0, 0⟩, Quat.identity⟩] []) ∧
    (⟨(1 : ℝ), 0, 0⟩ : Vec3) ≠ ⟨2, 0, 0⟩ := by
  refine ⟨?_, ?_, ?_⟩
  · simp [part002Transform, List.range_succ]
  · simp [part002Transform, List.range_succ]
  · intro hc
    have := congrArg Vec3.x hc
    norm_num at this

/-- Claim C3, amended (the property as stated holds for the app.js
transform: its per-item guard skips indices without a target, the call
is total, and every item beyond the shorter length keeps its pose; the
part_004 variant instead throws when the object collection is longer
than the target array, see the counterexample). -/
theorem C3_transform_prefix (objs ts : List Obj) (d : ℝ) (E : List Job) (i : ℕ)
    (h : ts.length ≤ i ∨ objs.length ≤ i) :
    (runToCompletion (transform objs (some ts) d E) objs)[i]? = objs[i]? := by
  by_cases hlen : objs.length = 0
  · rw [List.length_eq_zero.mp hlen, runToCompletion_nil]
  · rw [show transform objs (some ts) d E = buildJobs objs ts d by simp [transform, hlen]]
    rw [runToCompletion_getElem?, buildJobs_filter]
    rcases h with h | h
    · have hts : ts[i]? = none := List.getElem?_eq_none h
      by_cases hi : i < objs.length
      · rw [if_pos hi]
        have hempty : appJobsAt objs ts d i = [] := by
          unfold appJobsAt
          rcases hok : objs[i]? with _ | o <;> rw [hts]
        rw [hempty]
        cases objs[i]? <;> simp
      · rw [if_neg hi]
        cases objs[i]? <;> simp
    · have hi : ¬ i < objs.length := by omega
      rw [if_neg hi]
      cases objs[i]? <;> simp

/-- Witness for the amended C3: two objects, one target; the item at
index 1 (beyond the target array) is untouched. -/
theorem C3_transform_prefix_witness :
    (([(⟨⟨1, 0, 0⟩, ⟨0, 0, 0⟩, Quat.identity⟩ : Obj)] : List Obj).length ≤ 1 ∨
      ([(⟨⟨0, 0, 0⟩, ⟨0, 0, 0⟩, Quat.identity⟩ : Obj),
        ⟨⟨5, 5, 5⟩, ⟨0, 0, 0⟩, Quat.identity⟩] : List Obj).length ≤ 1) ∧
    (runToCompletion
        (transform [(⟨⟨0, 0, 0⟩, ⟨0, 0, 0⟩, Quat.identity⟩ : Obj),
            ⟨⟨5, 5, 5⟩, ⟨0, 0, 0⟩, Quat.identity⟩]
          (some [⟨⟨1, 0, 0⟩, ⟨0, 0, 0⟩, Quat.identity⟩]) 1200 [])
        [(⟨⟨0, 0, 0⟩, ⟨0, 0, 0⟩, Quat.identity⟩ : Obj),
         ⟨⟨5, 5, 5⟩, ⟨0, 0, 0⟩, Quat.identity⟩])[1]? =
      ([(⟨⟨0, 0, 0⟩, ⟨0, 0, 0⟩, Quat.identity⟩ : Obj),
        ⟨⟨5, 5, 5⟩, ⟨0, 0, 0⟩, Quat.identity⟩] : List Obj)[1]? :=
  ⟨Or.inl (by simp),
   C3_transform_prefix
     [(⟨⟨0, 0, 0⟩, ⟨0, 0, 0⟩, Quat.identity⟩ : Obj),
      ⟨⟨5, 5, 5⟩, ⟨0, 0, 0⟩, Quat.identity⟩]
     [⟨⟨1, 0, 0⟩, ⟨0, 0, 0⟩, Quat.identity⟩] 1200 [] 1 (Or.inl (by simp))⟩

/-- Claim C3, counterexample (part_004): with one live object and an
empty target formation, the part_004 transform loop evaluates
targets[0].position on an undefined element and throws (modelled as
none), so the call does not tolerate every pair of lengths silently. -/
theorem C3_counterexample :
    part004Transform [(⟨⟨0, 0, 0⟩, ⟨0, 0, 0⟩, Quat.identity⟩ : Obj)] [] [] = none := by
  norm_num [part004Transform]

/-- Claim C7, amended (the property as stated holds for the app.js
transform; the part_002/part_003/part_004 variants interpolate Euler
angles per-axis instead, see the counterexample): every job the app.js
transform schedules either leaves the object's orientation fields
completely untouched (the position tween), or its entire effect at raw
progress k is to set the quaternion to the spherical linear
interpolation between the object's start quaternion and the target
pose's quaternion at the eased factor — never a per-axis Euler-angle
interpolation. -/
theorem C7_orientation_slerp (objs ts : List Obj) (E : List Job) (d : ℝ) (j : Job)
    (hne : objs ≠ []) (hj : j ∈ transform objs (some ts) d E) :
    (∀ (o : Obj) (e : ℝ), (applyAtFactor e j.kind o).quaternion = o.quaternion ∧
        (applyAtFactor e j.kind o).rotation = o.rotation) ∨
    (∃ (o t : Obj), objs[j.objIndex]? = some o ∧ ts[j.objIndex]? = some t ∧
      ∀ (ob : Obj) (k : ℝ), applyAtProgress k j ob =
        { ob with quaternion :=
            slerpQuats o.quaternion t.quaternion (cubicInOut k) }) := by
  have hlen : ¬ objs.length = 0 := fun hc => hne (List.length_eq_zero.mp hc)
  rw [show transform objs (some ts) d E = buildJobs objs ts d by simp [transform, hlen],
    buildJobs, List.mem_flatMap] at hj
  obtain ⟨k, _, hjk⟩ := hj
  unfold appJobsAt at hjk
  rcases hok : objs[k]? with _ | o <;> rw [hok] at hjk
  · simp at hjk
  · rcases hts : ts[k]? with _ | t <;> rw [hts] at hjk
    · simp at hjk
    · simp only [List.mem_cons, List.mem_singleton] at hjk
      rcases hjk with rfl | rfl | hjk
      · left
        intro ob e
        exact ⟨rfl, rfl⟩
      · right
        exact ⟨o, t, hok, hts, fun ob e => rfl⟩
      · simp at hjk

/-- Witness for the amended C7: the quaternion job of a one-object call
is exactly a slerp job. -/
theorem C7_orientation_slerp_witness :
    (([(⟨⟨0, 0, 0⟩, ⟨0, 0, 0⟩, Quat.identity⟩ : Obj)] : List Obj) ≠ []) ∧
    (⟨0, min (((0 : ℕ) : ℝ) * perItemStagger) maxStagger, 1200, cubicInOut,
        .quatJob Quat.identity Quat.identity⟩ : Job) ∈
      transform [(⟨⟨0, 0, 0⟩, ⟨0, 0, 0⟩, Quat.identity⟩ : Obj)]
        (some [⟨⟨2, 0, 0⟩, ⟨0, 0, 0⟩, Quat.identity⟩]) 1200 [] ∧
    ((∀ (o : Obj) (e : ℝ),
        (applyAtFactor e (.quatJob Quat.identity Quat.identity) o).quaternion =
          o.quaternion ∧
        (applyAtFactor e (.quatJob Quat.identity Quat.identity) o).rotation =
          o.rotation) ∨
     (∃ (o t : Obj),
        ([(⟨⟨0, 0, 0⟩, ⟨0, 0, 0⟩, Quat.identity⟩ : Obj)] : List Obj)[(0 : ℕ)]? = some o ∧
        ([(⟨⟨2, 0, 0⟩, ⟨0, 0, 0⟩, Quat.identity⟩ : Obj)] : List Obj)[(0 : ℕ)]? = some t ∧
        ∀ (ob : Obj) (k : ℝ),
          applyAtProgress k
              ⟨0, min (((0 : ℕ) : ℝ) * perItemStagger) maxStagger, 1200, cubicInOut,
                .quatJob Quat.identity Quat.identity⟩ ob =
            { ob with quaternion :=
                slerpQuats o.quaternion t.quaternion (cubicInOut k) })) := by
  have hne : ([(⟨⟨0, 0, 0⟩, ⟨0, 0, 0⟩, Quat.identity⟩ : Obj)] : List Obj) ≠ [] := by simp
  have hmem : (⟨0, min (((0 : ℕ) : ℝ) * perItemStagger) maxStagger, 1200, cubicInOut,
        .quatJob Quat.identity Quat.identity⟩ : Job) ∈
      transform [(⟨⟨0, 0, 0⟩, ⟨0, 0, 0⟩, Quat.identity⟩ : Obj)]
        (some [⟨⟨2, 0, 0⟩, ⟨0, 0, 0⟩, Quat.identity⟩]) 1200 [] := by
    show _ ∈ buildJobs _ _ _
    rw [buildJobs, List.mem_flatMap]
    refine ⟨0, by simp, ?_⟩
    unfold appJobsAt
    simp
  exact ⟨hne, hmem,
    C7_orientation_slerp _ _ [] 1200 _ hne hmem⟩

/-- Claim C7, counterexample (part_003): take one object at identity
orientation and a target pose with Euler rotation (PI, PI, 0) — as a
rotation, half a turn about the z axis.  The part_003 transform
schedules a per-axis Euler rotation tween for it.  At the eased factor
expInOut(1/2) = 1/2 that tween puts the object at Euler
(PI/2, PI/2, 0), whose quaternion is (1/2, 1/2, 1/2, 1/2); spherical
linear interpolation between the same start and target orientations at
the same factor gives (0, 0, sqrt(2)/2, sqrt(2)/2).  The two differ and
are not negatives of each other, so they are different rotations:
orientation interpolation in this transform is not slerp. -/
theorem C7_counterexample :
    (⟨0, 0, 1500, expInOut,
        .eulerJob ⟨0, 0, 0⟩ ⟨Real.pi, Real.pi, 0⟩⟩ : Job) ∈
      part003Jobs [(⟨⟨0, 0, 0⟩, ⟨0, 0, 0⟩, Quat.identity⟩ : Obj)]
        [⟨⟨0, 0, 0⟩, ⟨Real.pi, Real.pi, 0⟩, eulerToQuat ⟨Real.pi, Real.pi, 0⟩⟩]
        (fun _ => 0) 1500 ∧
    expInOut (1 / 2) = 1 / 2 ∧
    (applyAtFactor (expInOut (1 / 2))
        (.eulerJob ⟨0, 0, 0⟩ ⟨Real.pi, Real.pi, 0⟩)
        (⟨⟨0, 0, 0⟩, ⟨0, 0, 0⟩, Quat.identity⟩ : Obj)).quaternion ≠
      slerpQuats Quat.identity (eulerToQuat ⟨Real.pi, Real.pi, 0⟩)
        (expInOut (1 / 2)) ∧
    (applyAtFactor (expInOut (1 / 2))
        (.eulerJob ⟨0, 0, 0⟩ ⟨Real.pi, Real.pi, 0⟩)
        (⟨⟨0, 0, 0⟩, ⟨0, 0, 0⟩, Quat.identity⟩ : Obj)).quaternion ≠
      (slerpQuats Quat.identity (eulerToQuat ⟨Real.pi, Real.pi, 0⟩)
        (expInOut (1 / 2))).negQ := by
  have hehalf : expInOut (1 / 2) = 1 / 2 := by
    have h0 : ((1 : ℝ) / 2) ≠ 0 := by norm_num
    have h1 : ((1 : ℝ) / 2) ≠ 1 := by norm_num
    have h2 : ¬ (2 * ((1 : ℝ) / 2) < 1) := by norm_num
    unfold expInOut
    rw [if_neg h0, if_neg h1, if_neg h2,
      show (-10 * (2 * ((1 : ℝ) / 2) - 1)) = 0 by ring, Real.rpow_zero]
    norm_num
  have htq : eulerToQuat ⟨Real.pi, Real.pi, 0⟩ = (⟨0, 0, 1, 0⟩ : Quat) := by
    norm_num [eulerToQuat, Real.cos_pi_div_two, Real.sin_pi_div_two]
  have hmidE : lerpV3 ⟨0, 0, 0⟩ ⟨Real.pi, Real.pi, 0⟩ (1 / 2) =
      ⟨Real.pi / 2, Real.pi / 2, 0⟩ := by
    ext <;> simp [lerpV3, lerp] <;> ring
  have hmidQ : eulerToQuat ⟨Real.pi / 2, Real.pi / 2, 0⟩ =
      (⟨1 / 2, 1 / 2, 1 / 2, 1 / 2⟩ : Quat) := by
    have h4 : Real.pi / 2 / 2 = Real.pi / 4 := by ring
    have hhalf : Real.sqrt 2 / 2 * (Real.sqrt 2 / 2) = 1 / 2 := by
      rw [div_mul_div_comm, Real.mul_self_sqrt (by norm_num : (0 : ℝ) ≤ 2)]
      norm_num
    norm_num [eulerToQuat, h4, Real.cos_pi_div_four, Real.sin_pi_div_four, hhalf]
  have happly : (applyAtFactor (expInOut (1 / 2))
      (.eulerJob ⟨0, 0, 0⟩ ⟨Real.pi, Real.pi, 0⟩)
      (⟨⟨0, 0, 0⟩, ⟨0, 0, 0⟩, Quat.identity⟩ : Obj)).quaternion =
      (⟨1 / 2, 1 / 2, 1 / 2, 1 / 2⟩ : Quat) := by
    rw [hehalf]
    simp only [applyAtFactor]
    rw [hmidE, hmidQ]
  have hslerp : slerpQuats Quat.identity (eulerToQuat ⟨Real.pi, Real.pi, 0⟩)
      (expInOut (1 / 2)) =
      (⟨0, 0, Real.sqrt 2 / 2, Real.sqrt 2 / 2⟩ : Quat) := by
    rw [hehalf, htq]
    have ha : (1 - (1 : ℝ) / 2) * (Real.pi / 2) = Real.pi / 4 := by ring
    have hb : ((1 : ℝ) / 2) * (Real.pi / 2) = Real.pi / 4 := by ring
    simp only [slerpQuats, Quat.identity]
    norm_num [Real.arccos_zero, ha, hb, Real.sin_pi_div_four, Real.sqrt_one]
  refine ⟨?_, hehalf, ?_, ?_⟩
  · simp [part003Jobs, List.range_succ]
  · rw [happly, hslerp]
    intro hc
    have hx := congrArg Quat.x hc
    norm_num at hx
  · rw [happly, hslerp]
    intro hc
    have hx := congrArg Quat.x hc
    norm_num [Quat.negQ] at hx

/-- Claim C8: per-item stagger schedule of the app.js transform — for
every object index i holding both an object and a target, the scheduled
batch contains its position job and its orientation job, both with
delay min(i * perItemStagger, maxStagger); every scheduled job carries
the delay min(objIndex * perItemStagger, maxStagger), which never
exceeds maxStagger; the delay is monotone in the index; and the
configured constants are perItemStagger = 6 and maxStagger = 300. -/
theorem C8_stagger_schedule (objs ts : List Obj) (E : List Job) (d : ℝ) (i : ℕ)
    (o t : Obj) (ho : objs[i]? = some o) (ht : ts[i]? = some t) :
    (⟨i, min ((i : ℝ) * perItemStagger) maxStagger, d, cubicInOut,
       .posJob o.position t.position⟩ : Job) ∈ transform objs (some ts) d E ∧
    (⟨i, min ((i : ℝ) * perItemStagger) maxStagger, d, cubicInOut,
       .quatJob o.quaternion t.quaternion⟩ : Job) ∈ transform objs (some ts) d E ∧
    (∀ j ∈ transform objs (some ts) d E,
       j.delay = min ((j.objIndex : ℝ) * perItemStagger) maxStagger ∧
       j.delay ≤ maxStagger) ∧
    Monotone (fun n : ℕ => min ((n : ℝ) * perItemStagger) maxStagger) ∧
    perItemStagger = 6 ∧ maxStagger = 300 := by
  have hi : i < objs.length := (List.getElem?_eq_some_iff.mp ho).1
  have hlen : ¬ objs.length = 0 := by omega
  have htr : transform objs (some ts) d E = buildJobs objs ts d := by
    simp [transform, hlen]
  have hjobs : appJobsAt objs ts d i =
      [⟨i, min ((i : ℝ) * perItemStagger) maxStagger, d, cubicInOut,
        .posJob o.position t.position⟩,
       ⟨i, min ((i : ℝ) * perItemStagger) maxStagger, d, cubicInOut,
        .quatJob o.quaternion t.quaternion⟩] := by
    unfold appJobsAt
    rw [ho, ht]
  refine ⟨?_, ?_, ?_, ?_, rfl, rfl⟩
  · rw [htr, buildJobs, List.mem_flatMap]
    exact ⟨i, List.mem_range.mpr hi, by rw [hjobs]; simp⟩
  · rw [htr, buildJobs, List.mem_flatMap]
    exact ⟨i, List.mem_range.mpr hi, by rw [hjobs]; simp⟩
  · intro j hj
    rw [htr, buildJobs, List.mem_flatMap] at hj
    obtain ⟨k, _, hjk⟩ := hj
    have hidx : j.objIndex = k := appJobsAt_objIndex objs ts d k j hjk
    have hdel : j.delay = min ((k : ℝ) * perItemStagger) maxStagger :=
      appJobsAt_delay objs ts d k j hjk
    rw [hdel, hidx]
    exact ⟨rfl, min_le_right _ _⟩
  · intro a b hab
    dsimp only
    exact min_le_min
      (mul_le_mul_of_nonneg_right (by exact_mod_cast hab)
        (by norm_num [perItemStagger]))
      le_rfl

/-- Witness for C8: a one-object, one-target call at index 0. -/
theorem C8_stagger_schedule_witness :
    (([(⟨⟨0, 0, 0⟩, ⟨0, 0, 0⟩, Quat.identity⟩ : Obj)] : List Obj)[(0 : ℕ)]? =
      some ⟨⟨0, 0, 0⟩, ⟨0, 0, 0⟩, Quat.identity⟩) ∧
    (([(⟨⟨2, 0, 0⟩, ⟨0, 0, 0⟩, Quat.identity⟩ : Obj)] : List Obj)[(0 : ℕ)]? =
      some ⟨⟨2, 0, 0⟩, ⟨0, 0, 0⟩, Quat.identity⟩) ∧
    ((⟨0, min (((0 : ℕ) : ℝ) * perItemStagger) maxStagger, 1200, cubicInOut,
        .posJob ⟨0, 0, 0⟩ ⟨2, 0, 0⟩⟩ : Job) ∈
      transform [(⟨⟨0, 0, 0⟩, ⟨0, 0, 0⟩, Quat.identity⟩ : Obj)]
        (some [⟨⟨2, 0, 0⟩, ⟨0, 0, 0⟩, Quat.identity⟩]) 1200 [] ∧
    (⟨0, min (((0 : ℕ) : ℝ) * perItemStagger) maxStagger, 1200, cubicInOut,
        .quatJob Quat.identity Quat.identity⟩ : Job) ∈
      transform [(⟨⟨0, 0, 0⟩, ⟨0, 0, 0⟩, Quat.identity⟩ : Obj)]
        (some [⟨⟨2, 0, 0⟩, ⟨0, 0, 0⟩, Quat.identity⟩]) 1200 [] ∧
    (∀ j ∈ transform [(⟨⟨0, 0, 0⟩, ⟨0, 0, 0⟩, Quat.identity⟩ : Obj)]
        (some [⟨⟨2, 0, 0⟩, ⟨0, 0, 0⟩, Quat.identity⟩]) 1200 [],
       j.delay = min ((j.objIndex : ℝ) * perItemStagger) maxStagger ∧
       j.delay ≤ maxStagger) ∧
    Monotone (fun n : ℕ => min ((n : ℝ) * perItemStagger) maxStagger) ∧
    perItemStagger = 6 ∧ maxStagger = 300) :=
  ⟨rfl, rfl,
   C8_stagger_schedule [(⟨⟨0, 0, 0⟩, ⟨0, 0, 0⟩, Quat.identity⟩ : Obj)]
     [⟨⟨2, 0, 0⟩, ⟨0, 0, 0⟩, Quat.identity⟩] [] 1200 0
     ⟨⟨0, 0, 0⟩, ⟨0, 0, 0⟩, Quat.identity⟩
     ⟨⟨2, 0, 0⟩, ⟨0, 0, 0⟩, Quat.identity⟩ rfl rfl⟩

end ThreeViz
